import Mathlib

/-!
Shallow embedding of the trading-performance analytics of the MindTrade
repository and verification of the specification claims about it.

Embedded source locations:
* src/models/dal.py — TradeDAL.create_trade (P&L, risk amount, R-multiple),
  AnalyticsDAL.get_trading_summary (counts, win rate, averages, profit
  factor, max drawdown over time-sorted trades),
  AnalyticsDAL.get_setup_performance (per-setup partitioning).
* src/utils/analytics.py — TradingAnalytics.get_trading_summary (profit
  factor, drawdown curve via expanding max, consecutive win and loss
  streaks, sharpe-style volatility figure),
  TradingAnalytics.get_setup_performance (group-by-setup partitioning),
  TradingAnalytics._get_empty_summary.

Monetary quantities and prices are modelled as rationals (idealised,
exact versions of the Python floats).  Python float infinity, which the
code produces for the profit factor when there is no losing trade, is
modelled by a dedicated constructor of the PyFloat type.
-/

/-- Trade direction.  The Python code compares the stored string against
the literal Long and treats every other value as a short trade, so a
two-valued type is faithful for the values the application stores. -/
inductive Direction
  | long
  | short
deriving DecidableEq

/-- The numeric inputs of TradeDAL.create_trade (src/models/dal.py). -/
structure TradeData where
  direction : Direction
  entry_price : ℚ
  stop_price : ℚ
  exit_price : ℚ
  quantity : ℚ
deriving DecidableEq

/-- P&L exactly as computed in TradeDAL.create_trade, dal.py lines 22-25:
for direction Long it is (exit_price - entry_price) * quantity, otherwise
(entry_price - exit_price) * quantity. -/
def pnlOf (t : TradeData) : ℚ :=
  match t.direction with
  | .long => (t.exit_price - t.entry_price) * t.quantity
  | .short => (t.entry_price - t.exit_price) * t.quantity

/-- Risk amount, dal.py line 27: abs(entry_price - stop_price) * quantity. -/
def riskAmount (t : TradeData) : ℚ :=
  |t.entry_price - t.stop_price| * t.quantity

/-- R-multiple, dal.py line 28:
pnl / risk_amount if risk_amount > 0 else 0.
Note that when the risk amount is zero the code stores the number 0,
not an undefined marker. -/
def rMultiple (t : TradeData) : ℚ :=
  if 0 < riskAmount t then pnlOf t / riskAmount t else 0

/-- The derived fields that TradeDAL.create_trade stores on the trade row
and that AnalyticsDAL.get_trading_summary later aggregates. -/
structure DTrade where
  pnl : ℚ
  r_multiple : ℚ
  trade_time : ℤ
deriving DecidableEq

/-- TradeDAL.create_trade, restricted to the derived numeric fields it
computes and stores (dal.py lines 18-47).  The function is total: the
code performs no validation of prices or quantity. -/
def createTrade (t : TradeData) (time : ℤ) : DTrade :=
  { pnl := pnlOf t, r_multiple := rMultiple t, trade_time := time }

/-- Model of the Python float values produced by the profit-factor
computation: either an ordinary (finite) number or the float infinity
that the code produces when the gross loss is zero. -/
inductive PyFloat
  | num (q : ℚ)
  | inf
deriving DecidableEq

/-- Gross profit, dal.py line 279: sum of the strictly positive pnl values. -/
def grossProfit (ps : List ℚ) : ℚ :=
  (ps.filter (fun p => decide (0 < p))).sum

/-- Sum of the strictly negative pnl values (dal.py line 280 takes its
absolute value to obtain the gross loss). -/
def lossSum (ps : List ℚ) : ℚ :=
  (ps.filter (fun p => decide (p < 0))).sum

/-- Profit factor, dal.py line 281:
gross_profit / gross_loss if gross_loss > 0 else float infinity. -/
def dalProfitFactor (ps : List ℚ) : PyFloat :=
  if 0 < |lossSum ps| then .num (grossProfit ps / |lossSum ps|) else .inf

/-- Profit factor as computed in analytics.py line 60:
abs(sum of positive pnl / sum of negative pnl) if losing_trades > 0 else
float infinity. -/
def analyticsProfitFactor (ps : List ℚ) : PyFloat :=
  if 0 < ps.countP (fun p => decide (p < 0)) then
    .num |grossProfit ps / lossSum ps|
  else .inf

/-- Stable insertion of a trade into a list sorted by trade_time.  Used to
model the stable Python sorted(trades, key=trade_time) in dal.py line 288. -/
def insertByTime (t : DTrade) : List DTrade → List DTrade
  | [] => [t]
  | x :: xs =>
      if t.trade_time ≤ x.trade_time then t :: x :: xs else x :: insertByTime t xs

/-- Stable sort by trade_time, modelling sorted(trades, key=trade_time).
A stable sort is uniquely determined by the key, so insertion sort and
Python timsort agree here. -/
def sortByTime : List DTrade → List DTrade
  | [] => []
  | x :: xs => insertByTime x (sortByTime xs)

/-- The drawdown loop of AnalyticsDAL.get_trading_summary, dal.py lines
283-294: cumulative pnl starts at 0, the peak starts at 0 and is raised
whenever the cumulative pnl exceeds it, the drawdown is peak minus
cumulative pnl (a non-negative magnitude), and the maximum drawdown is the
largest such magnitude seen. -/
def dalDrawdownLoop (cum peak maxdd : ℚ) : List ℚ → ℚ
  | [] => maxdd
  | p :: ps =>
      let cum2 := cum + p
      let peak2 := if peak < cum2 then cum2 else peak
      let dd := peak2 - cum2
      let maxdd2 := if maxdd < dd then dd else maxdd
      dalDrawdownLoop cum2 peak2 maxdd2 ps

/-- Maximum drawdown of dal.py lines 283-294, applied to the pnl values in
time order. -/
def dalMaxDrawdown (ps : List ℚ) : ℚ :=
  dalDrawdownLoop 0 0 0 ps

/-- Number of winning trades, dal.py line 270: pnl strictly positive. -/
def dalWinning (ts : List DTrade) : ℕ :=
  ts.countP (fun t => decide (0 < t.pnl))

/-- Number of losing trades, dal.py line 271: pnl strictly negative. -/
def dalLosing (ts : List DTrade) : ℕ :=
  ts.countP (fun t => decide (t.pnl < 0))

/-- Win rate, dal.py line 272: winning / total * 100 (guarded by total > 0). -/
def dalWinRate (ts : List DTrade) : ℚ :=
  if 0 < ts.length then ((dalWinning ts : ℚ) / (ts.length : ℚ)) * 100 else 0

/-- Total P&L, dal.py line 274. -/
def dalTotalPnl (ts : List DTrade) : ℚ :=
  (ts.map DTrade.pnl).sum

/-- Average P&L per trade, dal.py line 275. -/
def dalAvgPnl (ts : List DTrade) : ℚ :=
  if 0 < ts.length then dalTotalPnl ts / (ts.length : ℚ) else 0

/-- Average R-multiple, dal.py line 276: the stored r_multiple values of
ALL trades (including the zero-risk ones, which were stored as 0) divided
by the total number of trades. -/
def dalAvgR (ts : List DTrade) : ℚ :=
  if 0 < ts.length then (ts.map DTrade.r_multiple).sum / (ts.length : ℚ) else 0

/-- The record returned by AnalyticsDAL.get_trading_summary. -/
structure DalSummary where
  total_trades : ℕ
  winning_trades : ℕ
  losing_trades : ℕ
  win_rate : ℚ
  total_pnl : ℚ
  avg_pnl : ℚ
  avg_r_multiple : ℚ
  max_drawdown : ℚ
  profit_factor : PyFloat
deriving DecidableEq

/-- AnalyticsDAL.get_trading_summary, dal.py lines 245-306, applied to an
already-retrieved list of trades.  The empty branch (lines 256-267)
returns a record of zeroes, with profit_factor the number 0; the main
branch computes counts, win rate, sums, averages, the profit factor and
the maximum drawdown over the trades sorted by trade_time. -/
def dalTradingSummary (ts : List DTrade) : DalSummary :=
  match ts with
  | [] =>
      { total_trades := 0, winning_trades := 0, losing_trades := 0,
        win_rate := 0, total_pnl := 0, avg_pnl := 0, avg_r_multiple := 0,
        max_drawdown := 0, profit_factor := .num 0 }
  | _ :: _ =>
      { total_trades := ts.length,
        winning_trades := dalWinning ts,
        losing_trades := dalLosing ts,
        win_rate := dalWinRate ts,
        total_pnl := dalTotalPnl ts,
        avg_pnl := dalAvgPnl ts,
        avg_r_multiple := dalAvgR ts,
        max_drawdown := dalMaxDrawdown ((sortByTime ts).map DTrade.pnl),
        profit_factor := dalProfitFactor (ts.map DTrade.pnl) }

/-- Boolean win flags, analytics.py line 74: df win = pnl > 0.  A breakeven
trade (pnl equal to 0) gets the flag false, i.e. it is classified with the
losses, not as a third category. -/
def winFlags (ps : List ℚ) : List Bool :=
  ps.map (fun p => decide (0 < p))

/-- Longest run of the boolean value b, carrying the current run length and
the best run length seen so far.  This is the value that the pandas
group-by-cumcount construction in analytics.py line 75 (and the equivalent
group-by aggregation in pattern_finder_agent.py lines 139-164) computes:
the maximal number of consecutive rows whose flag equals b. -/
def longestRunAux (b : Bool) (cur best : ℕ) : List Bool → ℕ
  | [] => best
  | x :: xs =>
      let cur2 := if x = b then cur + 1 else 0
      longestRunAux b cur2 (max best cur2) xs

/-- Longest run of the boolean value b in a list of flags. -/
def longestRun (b : Bool) (l : List Bool) : ℕ :=
  longestRunAux b 0 0 l

/-- max_consecutive_wins of analytics.py lines 74-76: the longest run of
true win flags, guarded by the existence of at least one winning trade. -/
def maxConsecWins (ps : List ℚ) : ℕ :=
  if 0 < ps.countP (fun p => decide (0 < p)) then longestRun true (winFlags ps) else 0

/-- max_consecutive_losses of analytics.py lines 74-77: the longest run of
FALSE win flags (which therefore includes breakeven trades), guarded by
the existence of at least one strictly losing trade. -/
def maxConsecLosses (ps : List ℚ) : ℕ :=
  if 0 < ps.countP (fun p => decide (p < 0)) then longestRun false (winFlags ps) else 0

/-- Cumulative sums with accumulator, modelling the pandas cumsum of
analytics.py line 67. -/
def cumsumAux (acc : ℚ) : List ℚ → List ℚ
  | [] => []
  | p :: ps => (acc + p) :: cumsumAux (acc + p) ps

/-- Cumulative pnl series, analytics.py line 67. -/
def cumsum (ps : List ℚ) : List ℚ :=
  cumsumAux 0 ps

/-- Running maxima continuing from a previous maximum m. -/
def prefixMaxAux (m : ℚ) : List ℚ → List ℚ
  | [] => []
  | x :: xs => max m x :: prefixMaxAux (max m x) xs

/-- Expanding maximum of a series, analytics.py line 68: the first running
peak is the FIRST element itself (pandas expanding max), not its max with
zero. -/
def runningMax : List ℚ → List ℚ
  | [] => []
  | x :: xs => x :: prefixMaxAux x xs

/-- Drawdown series, analytics.py line 69: cumulative pnl minus its
expanding maximum, pointwise. -/
def drawdowns (ps : List ℚ) : List ℚ :=
  List.zipWith (fun c m => c - m) (cumsum ps) (runningMax (cumsum ps))

/-- Minimum of a list of rationals, with 0 for the empty list (the code
never evaluates the min on an empty series because the empty trade list is
returned early). -/
def listMin : List ℚ → ℚ
  | [] => 0
  | x :: xs => xs.foldl min x

/-- max_drawdown of analytics.py line 70: the minimum of the drawdown
series (the most negative value). -/
def analyticsMaxDrawdown (ps : List ℚ) : ℚ :=
  listMin (drawdowns ps)

/-- Follows the spec words (refinement comparison definition): the spec
defines running_peak 0 as max(0, cumulative_pnl 0), then the same running
maximum recurrence as the code. -/
def specRunningPeak (ps : List ℚ) : List ℚ :=
  match cumsum ps with
  | [] => []
  | c :: cs => max 0 c :: prefixMaxAux (max 0 c) cs

/-- Follows the spec words: drawdown series against the zero-clamped
running peak. -/
def specDrawdowns (ps : List ℚ) : List ℚ :=
  List.zipWith (fun c m => c - m) (cumsum ps) (specRunningPeak ps)

/-- Follows the spec words: maximum (most negative) drawdown, 0 for an
empty sequence. -/
def specMaxDrawdown (ps : List ℚ) : ℚ :=
  listMin (specDrawdowns ps)

/-- Mean of a list of rationals (pandas mean), 0 for the empty list. -/
def meanQ (ps : List ℚ) : ℚ :=
  if ps.length = 0 then 0 else ps.sum / (ps.length : ℚ)

/-- Sum of squared deviations from the mean. -/
def sqDevSum (ps : List ℚ) : ℚ :=
  (ps.map (fun p => (p - meanQ ps) ^ 2)).sum

/-- Sample variance with ddof 1, the square of the pandas std used in
analytics.py line 87 (defined for at least two rows; pandas yields NaN
below that, and the code guard std > 0 is false for NaN). -/
def sampleVar (ps : List ℚ) : ℚ :=
  if 2 ≤ ps.length then sqDevSum ps / ((ps.length : ℚ) - 1) else 0

/-- Population variance (the spec asks for the population, ddof 0, std). -/
def popVar (ps : List ℚ) : ℚ :=
  if ps.length = 0 then 0 else sqDevSum ps / (ps.length : ℚ)

/-- The sharpe figure of analytics.py line 88, mean / std if std > 0 else 0,
encoded inside ℚ through the strictly monotone map x to x * abs x:
for positive v, (m / sqrt v) * abs (m / sqrt v) = m * abs m / v, so the
encoded value below determines the float value uniquely, and std > 0 is
equivalent to the variance being positive.  The list length guard models
pandas returning NaN (which fails the > 0 test) on fewer than two rows. -/
def analyticsSharpeSq (ps : List ℚ) : ℚ :=
  if 2 ≤ ps.length ∧ 0 < sampleVar ps then meanQ ps * |meanQ ps| / sampleVar ps else 0

/-- Follows the spec words: the same encoded ratio but with the population
standard deviation. -/
def specSharpeSq (ps : List ℚ) : ℚ :=
  if 2 ≤ ps.length ∧ 0 < popVar ps then meanQ ps * |meanQ ps| / popVar ps else 0

/-- The fields of the dictionary returned by
TradingAnalytics._get_empty_summary (analytics.py lines 527-564) that
carry per-collection statistics.  The string marker used for the profit
factor is modelled as Option.none; every other field is the number the
code puts in the dictionary. -/
structure AnEmptySummary where
  total_trades : ℕ
  winning_trades : ℕ
  losing_trades : ℕ
  break_even_trades : ℕ
  win_rate : ℚ
  profit_factor : Option ℚ
  total_pnl : ℚ
  total_fees : ℚ
  net_pnl : ℚ
  avg_win : ℚ
  avg_loss : ℚ
  avg_trade : ℚ
  avg_r_multiple : ℚ
  total_r : ℚ
  max_drawdown : ℚ
deriving DecidableEq

/-- TradingAnalytics._get_empty_summary, analytics.py lines 527-564. -/
def analyticsEmptySummary : AnEmptySummary :=
  { total_trades := 0, winning_trades := 0, losing_trades := 0,
    break_even_trades := 0, win_rate := 0, profit_factor := none,
    total_pnl := 0, total_fees := 0, net_pnl := 0, avg_win := 0,
    avg_loss := 0, avg_trade := 0, avg_r_multiple := 0, total_r := 0,
    max_drawdown := 0 }

/-- A trade as seen by the setup-attribution code: its optional setup
label and its pnl. -/
structure STrade where
  setup : Option String
  pnl : ℚ
deriving DecidableEq

/-- Setup label of a trade, analytics.py line 147: the setup name when the
outer join found one, otherwise the literal No Setup. -/
def labelOf (t : STrade) : String :=
  t.setup.getD "No Setup"

/-- First-occurrence deduplication with an accumulator of keys already
seen: a key is kept exactly when it has not been seen before. -/
def firstKeysAux (seen : List String) : List String → List String
  | [] => []
  | x :: xs =>
      if x ∈ seen then firstKeysAux seen xs
      else x :: firstKeysAux (x :: seen) xs

/-- First-occurrence deduplication of a key list, modelling the insertion
order of the Python dict used to group trades in analytics.py lines
144-155. -/
def firstKeys (l : List String) : List String :=
  firstKeysAux [] l

/-- The partitions built by TradingAnalytics.get_setup_performance,
analytics.py lines 144-155: one partition per distinct label, in first
appearance order, each holding every trade with that label.  Every
partition is nonempty by construction. -/
def analyticsPartitions (ts : List STrade) : List (String × List STrade) :=
  (firstKeys (ts.map labelOf)).map
    (fun l => (l, ts.filter (fun t => decide (labelOf t = l))))

/-- The partitions built by AnalyticsDAL.get_setup_performance, dal.py
lines 308-334: one candidate partition per setup in the Setup table
(matching trades by their setup reference), with empty partitions skipped.
A trade without a setup, or whose setup is not in the table, appears in no
partition. -/
def dalSetupPartitions (setups : List String) (ts : List STrade) : List (String × List STrade) :=
  (setups.map (fun s => (s, ts.filter (fun t => decide (t.setup = some s))))).filter
    (fun p => decide (p.2 ≠ []))

/-- Scenario A of the spec: one long trade, entry 100, stop 95, exit 110,
quantity 10. -/
def scenA : TradeData :=
  ⟨.long, 100, 95, 110, 10⟩

/-- Scenario B of the spec: one short trade, entry 100, stop 105, exit 90,
quantity 5. -/
def scenB : TradeData :=
  ⟨.short, 100, 105, 90, 5⟩

/-- Scenario C of the spec: a zero-risk long trade, entry 100, stop 100,
exit 110, quantity 1. -/
def scenC : TradeData :=
  ⟨.long, 100, 100, 110, 1⟩

/-- Scenario D of the spec: the pnl sign sequence plus, plus, minus, plus,
breakeven, minus, minus, minus. -/
def scenD : List ℚ :=
  [1, 1, -1, 1, 0, -1, -1, -1]

/-- A winning trade used in the order-dependence counterexample; its
trade_time ties with permB. -/
def permA : DTrade :=
  ⟨10, 0, 0⟩

/-- A losing trade used in the order-dependence counterexample; its
trade_time ties with permA. -/
def permB : DTrade :=
  ⟨-4, 0, 0⟩

theorem zipWith_sub_prefixMaxAux_nonpos (m : ℚ) (l : List ℚ) :
    ∀ d ∈ List.zipWith (fun c k => c - k) l (prefixMaxAux m l), d ≤ 0 := by
  induction l generalizing m with
  | nil => intro d hd; simp [prefixMaxAux] at hd
  | cons x xs ih =>
      intro d hd
      simp only [prefixMaxAux, List.zipWith_cons_cons, List.mem_cons] at hd
      rcases hd with h | h
      · subst h
        simp [sub_nonpos, le_max_right]
      · exact ih (max m x) d h

theorem drawdowns_nonpos (ps : List ℚ) : ∀ d ∈ drawdowns ps, d ≤ 0 := by
  unfold drawdowns
  cases h : cumsum ps with
  | nil => simp
  | cons c cs =>
      intro d hd
      simp only [runningMax, List.zipWith_cons_cons, List.mem_cons] at hd
      rcases hd with h1 | h1
      · subst h1; simp
      · exact zipWith_sub_prefixMaxAux_nonpos c cs d h1

theorem foldl_min_spec (a : ℚ) (l : List ℚ) :
    l.foldl min a ∈ a :: l ∧ ∀ d ∈ a :: l, l.foldl min a ≤ d := by
  induction l generalizing a with
  | nil => simp
  | cons y ys ih =>
      have h := ih (min a y)
      have hmem := h.1
      have hle := h.2
      rw [List.mem_cons] at hmem
      constructor
      · rw [List.foldl_cons]
        rcases hmem with hm | hm
        · rcases min_choice a y with hc | hc
          · rw [List.mem_cons]
            left
            rw [hm, hc]
          · rw [List.mem_cons]
            right
            rw [List.mem_cons]
            left
            rw [hm, hc]
        · rw [List.mem_cons]
          right
          exact List.mem_cons_of_mem _ hm
      · intro d hd
        rw [List.mem_cons, List.mem_cons] at hd
        have hbase : ys.foldl min (min a y) ≤ min a y :=
          hle _ (List.mem_cons_self _ _)
        rw [List.foldl_cons]
        rcases hd with rfl | rfl | hd
        · exact le_trans hbase (min_le_left _ _)
        · exact le_trans hbase (min_le_right _ _)
        · exact hle d (List.mem_cons_of_mem _ hd)

theorem listMin_spec (x : ℚ) (xs : List ℚ) :
    listMin (x :: xs) ∈ x :: xs ∧ ∀ d ∈ x :: xs, listMin (x :: xs) ≤ d :=
  foldl_min_spec x xs

theorem sum_neg_of_all_neg (l : List ℚ) (hne : l ≠ []) (h : ∀ x ∈ l, x < 0) :
    l.sum < 0 := by
  induction l with
  | nil => exact absurd rfl hne
  | cons x xs ih =>
      have hx := h x (List.mem_cons_self _ _)
      cases xs with
      | nil => simpa using hx
      | cons y ys =>
          have hxs := ih (by simp) (fun z hz => h z (List.mem_cons_of_mem _ hz))
          rw [List.sum_cons]
          linarith

theorem lossSum_nonpos (ps : List ℚ) : lossSum ps ≤ 0 := by
  unfold lossSum
  rcases h : ps.filter (fun p => decide (p < 0)) with _ | ⟨x, xs⟩
  · simp
  · have hall : ∀ y ∈ ps.filter (fun p => decide (p < 0)), y < 0 := by
      intro y hy
      have := List.of_mem_filter hy
      simpa using this
    rw [h] at hall
    exact le_of_lt (sum_neg_of_all_neg _ (by simp) hall)

theorem lossSum_neg_of_filter_ne_nil (ps : List ℚ)
    (h : ps.filter (fun p => decide (p < 0)) ≠ []) : lossSum ps < 0 := by
  unfold lossSum
  have hall : ∀ y ∈ ps.filter (fun p => decide (p < 0)), y < 0 := by
    intro y hy
    have := List.of_mem_filter hy
    simpa using this
  exact sum_neg_of_all_neg _ h hall

theorem grossProfit_nonneg (ps : List ℚ) : 0 ≤ grossProfit ps := by
  unfold grossProfit
  apply List.sum_nonneg
  intro x hx
  have := List.of_mem_filter hx
  have : 0 < x := by simpa using this
  exact le_of_lt this

theorem lossSum_eq_zero_of_filter_nil (ps : List ℚ)
    (h : ps.filter (fun p => decide (p < 0)) = []) : lossSum ps = 0 := by
  unfold lossSum
  rw [h]
  rfl

theorem analyticsProfitFactor_eq_dal (ps : List ℚ) :
    analyticsProfitFactor ps = dalProfitFactor ps := by
  unfold analyticsProfitFactor dalProfitFactor
  by_cases h : ps.filter (fun p => decide (p < 0)) = []
  · have h1 : lossSum ps = 0 := lossSum_eq_zero_of_filter_nil ps h
    have h2 : ps.countP (fun p => decide (p < 0)) = 0 := by
      rw [List.countP_eq_length_filter, h]
      rfl
    rw [h1, h2]
    simp
  · have h1 : lossSum ps < 0 := lossSum_neg_of_filter_ne_nil ps h
    have h2 : 0 < ps.countP (fun p => decide (p < 0)) := by
      rw [List.countP_eq_length_filter]
      exact List.length_pos.mpr h
    have habs : 0 < |lossSum ps| := abs_pos.mpr (ne_of_lt h1)
    rw [if_pos h2, if_pos habs]
    congr 1
    rw [abs_div, abs_of_nonneg (grossProfit_nonneg ps)]

theorem mem_firstKeysAux (a : String) :
    ∀ (l seen : List String), a ∈ firstKeysAux seen l ↔ a ∈ l ∧ a ∉ seen := by
  intro l
  induction l with
  | nil =>
      intro seen
      simp [firstKeysAux]
  | cons x xs ih =>
      intro seen
      by_cases hx : x ∈ seen
      · rw [firstKeysAux, if_pos hx, ih seen, List.mem_cons]
        constructor
        · rintro ⟨h1, h2⟩
          exact ⟨Or.inr h1, h2⟩
        · rintro ⟨h1, h2⟩
          rcases h1 with rfl | h1
          · exact absurd hx h2
          · exact ⟨h1, h2⟩
      · rw [firstKeysAux, if_neg hx, List.mem_cons, ih (x :: seen), List.mem_cons,
          List.mem_cons]
        by_cases hax : a = x
        · subst hax
          tauto
        · tauto

theorem nodup_firstKeysAux :
    ∀ (l seen : List String), (firstKeysAux seen l).Nodup := by
  intro l
  induction l with
  | nil =>
      intro seen
      simp [firstKeysAux]
  | cons x xs ih =>
      intro seen
      by_cases hx : x ∈ seen
      · rw [firstKeysAux, if_pos hx]
        exact ih seen
      · rw [firstKeysAux, if_neg hx]
        refine List.nodup_cons.mpr ⟨?_, ih (x :: seen)⟩
        intro hc
        exact ((mem_firstKeysAux x xs (x :: seen)).mp hc).2 (List.mem_cons_self _ _)

theorem sum_map_add_nat {α : Type} (f g : α → ℕ) (l : List α) :
    (l.map (fun a => f a + g a)).sum = (l.map f).sum + (l.map g).sum := by
  induction l with
  | nil => simp
  | cons x xs ih =>
      simp only [List.map_cons, List.sum_cons, ih]
      omega

theorem sum_indicator_eq_zero (a : String) (K : List String) (ha : a ∉ K) :
    (K.map (fun l => if a = l then (1 : ℕ) else 0)).sum = 0 := by
  induction K with
  | nil => simp
  | cons k ks ih =>
      have hak : a ≠ k := fun hc => ha (hc ▸ List.mem_cons_self _ _)
      have haks : a ∉ ks := fun hc => ha (List.mem_cons_of_mem _ hc)
      simp only [List.map_cons, List.sum_cons, if_neg hak, ih haks]

theorem sum_indicator_eq_one (a : String) (K : List String) (hK : K.Nodup)
    (ha : a ∈ K) : (K.map (fun l => if a = l then (1 : ℕ) else 0)).sum = 1 := by
  induction K with
  | nil => simp at ha
  | cons k ks ih =>
      rw [List.nodup_cons] at hK
      rcases List.mem_cons.mp ha with rfl | h
      · rw [List.map_cons, List.sum_cons, if_pos rfl, sum_indicator_eq_zero a ks hK.1]
      · have hak : a ≠ k := by
          rintro rfl
          exact hK.1 h
        rw [List.map_cons, List.sum_cons, if_neg hak, ih hK.2 h]

theorem sum_countP_eq_length (K : List String) (hK : K.Nodup) :
    ∀ ts : List STrade, (∀ t ∈ ts, labelOf t ∈ K) →
      (K.map (fun l => ts.countP (fun t => decide (labelOf t = l)))).sum = ts.length := by
  intro ts
  induction ts with
  | nil =>
      intro _
      simp
  | cons t rest ih =>
      intro hmem
      have h2 : K.map (fun l => (t :: rest).countP (fun t2 => decide (labelOf t2 = l)))
          = K.map (fun l => rest.countP (fun t2 => decide (labelOf t2 = l))
              + (if labelOf t = l then 1 else 0)) := by
        apply List.map_congr_left
        intro l _
        rw [List.countP_cons]
        by_cases hl : labelOf t = l <;> simp [hl]
      rw [h2, sum_map_add_nat, ih (fun t2 ht2 => hmem t2 (List.mem_cons_of_mem _ ht2)),
        sum_indicator_eq_one (labelOf t) K hK (hmem t (List.mem_cons_self _ _))]
      simp

theorem analyticsPartitions_conserve (ts : List STrade) :
    ((analyticsPartitions ts).map (fun p => p.2.length)).sum = ts.length := by
  unfold analyticsPartitions
  rw [List.map_map]
  have hc : ((firstKeys (ts.map labelOf)).map
        ((fun p : String × List STrade => p.2.length)
          ∘ (fun l => (l, ts.filter (fun t => decide (labelOf t = l)))))).sum
      = ((firstKeys (ts.map labelOf)).map
          (fun l => ts.countP (fun t => decide (labelOf t = l)))).sum := by
    congr 1
    apply List.map_congr_left
    intro l _
    simp [Function.comp, List.countP_eq_length_filter]
  rw [hc]
  apply sum_countP_eq_length
  · exact nodup_firstKeysAux _ _
  · intro t ht
    unfold firstKeys
    rw [mem_firstKeysAux]
    exact ⟨List.mem_map_of_mem _ ht, by simp⟩

theorem analyticsPartitions_ne_nil (ts : List STrade) :
    ∀ p ∈ analyticsPartitions ts, p.2 ≠ [] := by
  intro p hp
  unfold analyticsPartitions firstKeys at hp
  rcases List.mem_map.mp hp with ⟨l, hl, rfl⟩
  have hlm : l ∈ ts.map labelOf := ((mem_firstKeysAux l _ _).mp hl).1
  rcases List.mem_map.mp hlm with ⟨t, ht, rfl⟩
  show ts.filter (fun t2 => decide (labelOf t2 = labelOf t)) ≠ []
  intro hc
  have hmem : t ∈ ts.filter (fun t2 => decide (labelOf t2 = labelOf t)) :=
    List.mem_filter.mpr ⟨ht, by simp⟩
  rw [hc] at hmem
  simp at hmem

theorem sqDevSum_nonneg (ps : List ℚ) : 0 ≤ sqDevSum ps := by
  unfold sqDevSum
  apply List.sum_nonneg
  intro x hx
  rcases List.mem_map.mp hx with ⟨p, _, rfl⟩
  positivity

theorem sampleVar_nonneg (ps : List ℚ) : 0 ≤ sampleVar ps := by
  unfold sampleVar
  by_cases h : 2 ≤ ps.length
  · rw [if_pos h]
    have h2 : (2 : ℚ) ≤ (ps.length : ℚ) := by exact_mod_cast h
    apply div_nonneg (sqDevSum_nonneg ps)
    linarith
  · rw [if_neg h]

theorem dalSummary_total (ts : List DTrade) :
    (dalTradingSummary ts).total_trades = ts.length := by
  cases ts <;> rfl

theorem dalSummary_winning (ts : List DTrade) :
    (dalTradingSummary ts).winning_trades = dalWinning ts := by
  cases ts <;> rfl

theorem dalSummary_losing (ts : List DTrade) :
    (dalTradingSummary ts).losing_trades = dalLosing ts := by
  cases ts <;> rfl

theorem dalSummary_win_rate (ts : List DTrade) :
    (dalTradingSummary ts).win_rate = dalWinRate ts := by
  cases ts <;> rfl

theorem dalSummary_total_pnl (ts : List DTrade) :
    (dalTradingSummary ts).total_pnl = dalTotalPnl ts := by
  cases ts <;> rfl

theorem dalSummary_avg_pnl (ts : List DTrade) :
    (dalTradingSummary ts).avg_pnl = dalAvgPnl ts := by
  cases ts <;> rfl

theorem dalSummary_avg_r (ts : List DTrade) :
    (dalTradingSummary ts).avg_r_multiple = dalAvgR ts := by
  cases ts <;> rfl

/-- C1, counterexample.  The spec claims that a zero-risk trade (stop equal
to entry) carries an undefined R-multiple sentinel, never the number 0,
and is excluded from avg_r_multiple.  The code refutes this: for scenario
C (entry 100, stop 100, exit 110, quantity 1, Long) create_trade stores
r_multiple = 0 (dal.py line 28), and get_trading_summary averages the
stored r_multiple over ALL trades (dal.py line 276), so the zero-risk
trade participates in the average as a zero: together with scenario A
(R-multiple 2) the average is 1, not 2 as exclusion would give. -/
theorem c1_counterexample :
    rMultiple scenC = 0 ∧ pnlOf scenC = 10 ∧
    (dalTradingSummary [createTrade scenA 0, createTrade scenC 1]).avg_r_multiple = 1 := by
  refine ⟨?_, ?_, ?_⟩
  · norm_num [rMultiple, riskAmount, scenC]
  · norm_num [pnlOf, scenC]
  · norm_num [dalTradingSummary, dalAvgR, createTrade, rMultiple, riskAmount, pnlOf,
      scenA, scenC]

/-- C1, amended.  When the risk amount is zero the code coerces the
R-multiple to the number 0 (no sentinel), and such trades participate in
avg_r_multiple as zeroes; scenario C yields pnl 10 and r_multiple 0, and
averaged together with scenario A (R-multiple 2) gives 1. -/
theorem c1_amended :
    (∀ t : TradeData, riskAmount t = 0 → rMultiple t = 0) ∧
    pnlOf scenC = 10 ∧ rMultiple scenC = 0 ∧
    dalAvgR [createTrade scenA 0, createTrade scenC 1] = 1 := by
  refine ⟨?_, ?_, ?_, ?_⟩
  · intro t h
    unfold rMultiple
    rw [h]
    simp
  · norm_num [pnlOf, scenC]
  · norm_num [rMultiple, riskAmount, scenC]
  · norm_num [dalAvgR, createTrade, rMultiple, riskAmount, pnlOf, scenA, scenC]

/-- C1, witness for the amended theorem, instantiating the universally
quantified part at the zero-risk scenario C trade. -/
theorem c1_witness : rMultiple scenC = 0 :=
  c1_amended.1 scenC (by simp [riskAmount, scenC])

/-- C2: P&L is (exit - entry) * quantity for long trades and
(entry - exit) * quantity for short trades; scenario A gives pnl 100,
risk 50, R-multiple 2 and scenario B gives pnl 50, risk 25, R-multiple 2,
exactly as the spec states (dal.py lines 22-28). -/
theorem c2_trade_economics :
    (∀ t : TradeData, t.direction = .long →
        pnlOf t = (t.exit_price - t.entry_price) * t.quantity) ∧
    (∀ t : TradeData, t.direction = .short →
        pnlOf t = (t.entry_price - t.exit_price) * t.quantity) ∧
    pnlOf scenA = 100 ∧ riskAmount scenA = 50 ∧ rMultiple scenA = 2 ∧
    pnlOf scenB = 50 ∧ riskAmount scenB = 25 ∧ rMultiple scenB = 2 := by
  refine ⟨?_, ?_, ?_, ?_, ?_, ?_, ?_, ?_⟩
  · intro t h
    simp [pnlOf, h]
  · intro t h
    simp [pnlOf, h]
  · norm_num [pnlOf, scenA]
  · norm_num [riskAmount, scenA]
  · norm_num [rMultiple, riskAmount, pnlOf, scenA]
  · norm_num [pnlOf, scenB]
  · norm_num [riskAmount, scenB]
  · norm_num [rMultiple, riskAmount, pnlOf, scenB]

/-- C2, witness instantiating the long-direction formula at scenario A. -/
theorem c2_witness :
    pnlOf scenA = (scenA.exit_price - scenA.entry_price) * scenA.quantity :=
  c2_trade_economics.1 scenA rfl

/-- C3, counterexample.  The spec claims a breakeven trade terminates both
streak types and that the sign sequence of scenario D has
longest_loss_streak 3.  The code classifies a trade as win iff pnl > 0
(analytics.py line 74, pattern_finder_agent.py line 139), so a breakeven
trade extends the non-win (loss) run: on scenario D the computed longest
loss streak is 4 (the run minus, breakeven continuing into the three
trailing losses is broken only by wins), not 3. -/
theorem c3_counterexample :
    maxConsecLosses scenD = 4 ∧ maxConsecLosses scenD ≠ 3 := by
  constructor <;> decide

/-- C3, amended.  A breakeven trade is flagged false (not a win) and is
counted inside loss streaks: on scenario D the win flags are
[true, true, false, true, false, false, false, false], the longest win
streak is 2 and the longest loss streak is 4 (indices 4 to 7, the
breakeven at index 4 included). -/
theorem c3_amended :
    winFlags scenD = [true, true, false, true, false, false, false, false] ∧
    maxConsecWins scenD = 2 ∧ maxConsecLosses scenD = 4 := by
  decide

/-- C4, counterexample.  The spec formula clamps the first running peak at
max(0, cumulative_pnl 0), which on the single-trade sequence with pnl -10
gives drawdown -10 and max_drawdown_abs -10.  The code disagrees at that
input: the pandas expanding max of analytics.py line 68 starts at the
first cumulative value itself (-10), giving drawdown 0 and max drawdown 0,
while dal.py lines 283-294 report the positive magnitude 10, not -10. -/
theorem c4_counterexample :
    specMaxDrawdown [-10] = -10 ∧ analyticsMaxDrawdown [-10] = 0 ∧
    dalMaxDrawdown [-10] = 10 := by
  norm_num [specMaxDrawdown, analyticsMaxDrawdown, dalMaxDrawdown, specDrawdowns,
    drawdowns, specRunningPeak, runningMax, prefixMaxAux, cumsum, cumsumAux,
    listMin, dalDrawdownLoop]

/-- C4, amended.  In analytics.py the running peak is the plain expanding
maximum of the cumulative pnl (its first value is the first cumulative
value, without clamping at 0); with that one change the claimed invariants
hold: every drawdown is nonpositive, the reported max drawdown is the
minimum of the drawdown series (a member of the series bounding it from
below) for every nonempty input, and the scenario-E sequence with pnl
increments 100, -20, 40, -60 has cumulative pnl [100, 80, 120, 60], peaks
[100, 100, 120, 120], drawdowns [0, -20, 0, -60] and max drawdown -60.
The dal.py loop reports the same event as the positive magnitude 60. -/
theorem c4_amended :
    (∀ ps : List ℚ, ∀ d ∈ drawdowns ps, d ≤ 0) ∧
    (∀ ps : List ℚ, ps ≠ [] → analyticsMaxDrawdown ps ∈ drawdowns ps ∧
        ∀ d ∈ drawdowns ps, analyticsMaxDrawdown ps ≤ d) ∧
    cumsum [100, -20, 40, -60] = [100, 80, 120, 60] ∧
    runningMax (cumsum [100, -20, 40, -60]) = [100, 100, 120, 120] ∧
    drawdowns [100, -20, 40, -60] = [0, -20, 0, -60] ∧
    analyticsMaxDrawdown [100, -20, 40, -60] = -60 ∧
    dalMaxDrawdown [100, -20, 40, -60] = 60 := by
  refine ⟨drawdowns_nonpos, ?_, ?_, ?_, ?_, ?_, ?_⟩
  · intro ps hne
    cases ps with
    | nil => exact absurd rfl hne
    | cons p tl =>
        have hx : drawdowns (p :: tl) = ((0 + p) - (0 + p)) ::
            List.zipWith (fun c m => c - m) (cumsumAux (0 + p) tl)
              (prefixMaxAux (0 + p) (cumsumAux (0 + p) tl)) := rfl
        unfold analyticsMaxDrawdown
        rw [hx]
        exact listMin_spec _ _
  · norm_num [cumsum, cumsumAux]
  · norm_num [cumsum, cumsumAux, runningMax, prefixMaxAux]
  · norm_num [drawdowns, cumsum, cumsumAux, runningMax, prefixMaxAux]
  · norm_num [analyticsMaxDrawdown, drawdowns, cumsum, cumsumAux, runningMax,
      prefixMaxAux, listMin]
  · norm_num [dalMaxDrawdown, dalDrawdownLoop]

/-- C4, witness for the amended theorem, instantiating the nonpositivity
part at the drawdown -20 of the sequence [100, -20] and the minimum
characterisation at the same sequence. -/
theorem c4_witness :
    ((-20 : ℚ) ≤ 0) ∧ analyticsMaxDrawdown [100, -20] ∈ drawdowns [100, -20] :=
  ⟨c4_amended.1 [100, -20] (-20)
      (by norm_num [drawdowns, cumsum, cumsumAux, runningMax, prefixMaxAux]),
    (c4_amended.2.1 [100, -20] (by simp)).1⟩

/-- C5, counterexample.  The spec claims the profit factor is an undefined
sentinel, never infinity, whenever the losing sum is 0.  The code refutes
this: for the single winning trade with pnl 10 the losing sum is 0 and
dal.py line 281 produces float infinity. -/
theorem c5_counterexample :
    dalProfitFactor [10] = PyFloat.inf ∧ grossProfit [10] = 10 := by
  constructor
  · norm_num [dalProfitFactor, lossSum]
  · simp [grossProfit]

/-- C5, amended.  The profit factor equals the positive-pnl sum divided by
the absolute losing sum whenever at least one trade lost money, and is
float infinity (dal.py line 281) exactly when there is no losing trade —
not a typed undefined sentinel.  The analytics.py line 60 variant computes
the same value. -/
theorem c5_amended :
    (∀ ps : List ℚ, dalProfitFactor ps = PyFloat.inf ↔
        ps.filter (fun p => decide (p < 0)) = []) ∧
    (∀ ps : List ℚ, ps.filter (fun p => decide (p < 0)) ≠ [] →
        dalProfitFactor ps = PyFloat.num (grossProfit ps / |lossSum ps|)) ∧
    (∀ ps : List ℚ, analyticsProfitFactor ps = dalProfitFactor ps) := by
  have key : ∀ ps : List ℚ, ps.filter (fun p => decide (p < 0)) ≠ [] →
      dalProfitFactor ps = PyFloat.num (grossProfit ps / |lossSum ps|) := by
    intro ps h
    have h1 : lossSum ps < 0 := lossSum_neg_of_filter_ne_nil ps h
    unfold dalProfitFactor
    rw [if_pos (abs_pos.mpr (ne_of_lt h1))]
  refine ⟨?_, key, fun ps => analyticsProfitFactor_eq_dal ps⟩
  intro ps
  constructor
  · intro h
    by_contra hc
    rw [key ps hc] at h
    exact PyFloat.noConfusion h
  · intro h
    have h1 : lossSum ps = 0 := lossSum_eq_zero_of_filter_nil ps h
    unfold dalProfitFactor
    rw [h1]
    simp

/-- C5, witness for the amended theorem, instantiating the finite branch
at the single losing trade with pnl -5. -/
theorem c5_witness :
    dalProfitFactor [-5] = PyFloat.num (grossProfit [-5] / |lossSum [-5]|) :=
  c5_amended.2.1 [-5] (by decide)

/-- C6, counterexample.  The spec claims the empty-collection summary
marks profit_factor and avg_r_multiple with an undefined sentinel rather
than 0.  The code refutes this: the empty branch of dal.py lines 256-267
returns the number 0 for both, and even analytics.py line 547 returns the
number 0 for avg_r_multiple (only its profit_factor, line 536, is a
non-numeric marker). -/
theorem c6_counterexample :
    (dalTradingSummary []).profit_factor = PyFloat.num 0 ∧
    (dalTradingSummary []).avg_r_multiple = 0 ∧
    analyticsEmptySummary.avg_r_multiple = 0 :=
  ⟨rfl, rfl, rfl⟩

/-- C6, amended.  The empty collection yields, without any fault, a
summary whose counts and monetary fields are all 0; profit_factor and
avg_r_multiple are the number 0 in the dal summary, and in the analytics
summary only profit_factor carries the non-numeric marker while
avg_r_multiple is the number 0. -/
theorem c6_amended :
    dalTradingSummary [] =
      { total_trades := 0, winning_trades := 0, losing_trades := 0, win_rate := 0,
        total_pnl := 0, avg_pnl := 0, avg_r_multiple := 0, max_drawdown := 0,
        profit_factor := PyFloat.num 0 } ∧
    analyticsEmptySummary =
      { total_trades := 0, winning_trades := 0, losing_trades := 0,
        break_even_trades := 0, win_rate := 0, profit_factor := none,
        total_pnl := 0, total_fees := 0, net_pnl := 0, avg_win := 0,
        avg_loss := 0, avg_trade := 0, avg_r_multiple := 0, total_r := 0,
        max_drawdown := 0 } :=
  ⟨rfl, rfl⟩

/-- C7, counterexample.  The spec claims every trade lands in exactly one
partition, with absent categories mapped to a reserved Uncategorized
label.  The code refutes both parts: dal.py lines 308-334 iterate over
the Setup table and match trades by setup id, so a trade without a setup
appears in NO partition (here the sum of partition sizes is 0 although
one trade exists), and analytics.py line 147 uses the label No Setup, not
Uncategorized. -/
theorem c7_counterexample :
    dalSetupPartitions ["A"] [⟨none, 5⟩] = [] ∧
    analyticsPartitions [⟨none, 5⟩] = [("No Setup", [⟨none, 5⟩])] ∧
    labelOf ⟨none, 5⟩ ≠ "Uncategorized" := by
  refine ⟨by decide, by decide, by decide⟩

/-- C7, amended.  The analytics.py partitioning conserves trades: the
partition sizes sum to the collection size, no emitted partition is
empty, and an absent category maps to the label No Setup (not
Uncategorized).  The dal.py variant drops trades with no matching setup,
as the counterexample shows. -/
theorem c7_amended :
    (∀ ts : List STrade,
        ((analyticsPartitions ts).map (fun p => p.2.length)).sum = ts.length) ∧
    (∀ ts : List STrade, ∀ p ∈ analyticsPartitions ts, p.2 ≠ []) ∧
    labelOf ⟨none, 5⟩ = "No Setup" ∧
    dalSetupPartitions ["A"] [⟨none, 5⟩] = [] :=
  ⟨analyticsPartitions_conserve, analyticsPartitions_ne_nil, by decide, by decide⟩

/-- C7, witness for the amended theorem, instantiating the nonemptiness
part at the single uncategorised trade and its No Setup partition. -/
theorem c7_witness :
    ("No Setup", [(⟨none, 5⟩ : STrade)]).2 ≠ [] :=
  c7_amended.2.1 [⟨none, 5⟩] ("No Setup", [⟨none, 5⟩]) (by decide)

/-- C8, counterexample.  The spec claims a non-positive entry price, exit
price or quantity makes the derivation fail with InvalidTradeError.  No
such validation exists anywhere in the code: create_trade (dal.py lines
18-59) computes and stores the derived fields for an entry price of 0
without any error (and the summary path in analytics.py lines 127-129
catches every exception and substitutes the empty summary rather than
propagating). -/
theorem c8_counterexample :
    createTrade ⟨.long, 0, 5, 10, 2⟩ 0 =
      { pnl := 20, r_multiple := 2, trade_time := 0 } := by
  norm_num [createTrade, pnlOf, rMultiple, riskAmount]

/-- C8, amended.  The code performs no input validation: even for a
non-positive entry price, exit price or quantity, create_trade totally
computes and stores pnl and r_multiple by the usual formulas and raises
nothing (no InvalidTradeError exists in the repository). -/
theorem c8_amended :
    ∀ (t : TradeData) (time : ℤ),
      t.entry_price ≤ 0 ∨ t.exit_price ≤ 0 ∨ t.quantity ≤ 0 →
      createTrade t time =
        { pnl := pnlOf t, r_multiple := rMultiple t, trade_time := time } :=
  fun _ _ _ => rfl

/-- C8, witness for the amended theorem at an entry price of 0. -/
theorem c8_witness :
    createTrade ⟨.long, 0, 5, 10, 2⟩ 1 =
      { pnl := pnlOf ⟨.long, 0, 5, 10, 2⟩,
        r_multiple := rMultiple ⟨.long, 0, 5, 10, 2⟩, trade_time := 1 } :=
  c8_amended ⟨.long, 0, 5, 10, 2⟩ 1 (Or.inl le_rfl)

/-- C9, counterexample.  The spec claims the summary, its drawdown figure
included, is unchanged under any permutation of the input.  The code
refutes this: dal.py line 288 sorts by trade_time before the drawdown
loop, and Python sort is stable, so trades sharing a trade_time keep
their input order.  The permuted lists [10, -4, -4] and [-4, 10, -4]
(all at time 0) yield max_drawdown 8 and 4 respectively. -/
theorem c9_counterexample :
    ([permA, permB, permB] : List DTrade).Perm [permB, permA, permB] ∧
    (dalTradingSummary [permA, permB, permB]).max_drawdown = 8 ∧
    (dalTradingSummary [permB, permA, permB]).max_drawdown = 4 := by
  refine ⟨List.Perm.swap _ _ _, ?_, ?_⟩
  · norm_num [dalTradingSummary, permA, permB, dalMaxDrawdown, dalDrawdownLoop,
      sortByTime, insertByTime]
  · norm_num [dalTradingSummary, permA, permB, dalMaxDrawdown, dalDrawdownLoop,
      sortByTime, insertByTime]

/-- C9, amended.  Every field of the dal summary other than max_drawdown
is invariant under permutation of the input: counts, win rate, total and
average pnl, average R-multiple and profit factor.  The max_drawdown
field is computed on the time-sorted sequence and is therefore invariant
only when trade times are distinct; with tied times it depends on the
input order, as the counterexample shows. -/
theorem c9_amended (ts1 ts2 : List DTrade) (hp : ts1.Perm ts2) :
    (dalTradingSummary ts1).total_trades = (dalTradingSummary ts2).total_trades ∧
    (dalTradingSummary ts1).winning_trades = (dalTradingSummary ts2).winning_trades ∧
    (dalTradingSummary ts1).losing_trades = (dalTradingSummary ts2).losing_trades ∧
    (dalTradingSummary ts1).win_rate = (dalTradingSummary ts2).win_rate ∧
    (dalTradingSummary ts1).total_pnl = (dalTradingSummary ts2).total_pnl ∧
    (dalTradingSummary ts1).avg_pnl = (dalTradingSummary ts2).avg_pnl ∧
    (dalTradingSummary ts1).avg_r_multiple = (dalTradingSummary ts2).avg_r_multiple ∧
    (dalTradingSummary ts1).profit_factor = (dalTradingSummary ts2).profit_factor := by
  have hlen : ts1.length = ts2.length := hp.length_eq
  have hwin : dalWinning ts1 = dalWinning ts2 := hp.countP_eq _
  have hlos : dalLosing ts1 = dalLosing ts2 := hp.countP_eq _
  have hmap : (ts1.map DTrade.pnl).Perm (ts2.map DTrade.pnl) := hp.map _
  have hsum : dalTotalPnl ts1 = dalTotalPnl ts2 := hmap.sum_eq
  have hrsum : (ts1.map DTrade.r_multiple).sum = (ts2.map DTrade.r_multiple).sum :=
    (hp.map _).sum_eq
  have hgp : grossProfit (ts1.map DTrade.pnl) = grossProfit (ts2.map DTrade.pnl) :=
    (hmap.filter _).sum_eq
  have hls : lossSum (ts1.map DTrade.pnl) = lossSum (ts2.map DTrade.pnl) :=
    (hmap.filter _).sum_eq
  have hwr : dalWinRate ts1 = dalWinRate ts2 := by
    unfold dalWinRate
    rw [hlen, hwin]
  have hap : dalAvgPnl ts1 = dalAvgPnl ts2 := by
    unfold dalAvgPnl
    rw [hlen, hsum]
  have har : dalAvgR ts1 = dalAvgR ts2 := by
    unfold dalAvgR
    rw [hlen, hrsum]
  have hpf : dalProfitFactor (ts1.map DTrade.pnl) = dalProfitFactor (ts2.map DTrade.pnl) := by
    unfold dalProfitFactor
    rw [hgp, hls]
  cases ts1 with
  | nil =>
      have h2 : ts2 = [] := hp.symm.eq_nil
      subst h2
      exact ⟨rfl, rfl, rfl, rfl, rfl, rfl, rfl, rfl⟩
  | cons a l =>
      cases ts2 with
      | nil =>
          exact absurd hlen (by simp)
      | cons b m =>
          exact ⟨hlen, hwin, hlos, hwr, hsum, hap, har, hpf⟩

/-- C9, witness for the amended theorem at a two-trade permutation pair. -/
theorem c9_witness :
    (dalTradingSummary [permA, permB]).total_pnl =
      (dalTradingSummary [permB, permA]).total_pnl :=
  (c9_amended [permA, permB] [permB, permA] (List.Perm.swap _ _ _)).2.2.2.2.1

/-- C10, counterexample.  The spec claims the volatility figure divides
the mean pnl by the POPULATION standard deviation.  The code refutes
this: pandas std defaults to the sample deviation (ddof 1), so on the
two-trade pnl list [0, 2] the code value is mean/sqrt(2) while the spec
value is mean/1; in the signed-square encoding v * abs v the two are 1/2
and 1, which differ. -/
theorem c10_counterexample :
    analyticsSharpeSq [0, 2] = 1 / 2 ∧ specSharpeSq [0, 2] = 1 ∧
    (1 / 2 : ℚ) ≠ 1 := by
  refine ⟨?_, ?_, by norm_num⟩
  · norm_num [analyticsSharpeSq, sampleVar, sqDevSum, meanQ]
  · norm_num [specSharpeSq, popVar, sqDevSum, meanQ]

/-- C10, amended.  The volatility figure is mean pnl divided by the
SAMPLE (ddof 1) standard deviation, and is 0 whenever the collection has
fewer than 2 trades or zero variance; in the signed-square encoding, its
product with the sample variance recovers the signed square of the mean
whenever the variance is nonzero, and the sample variance is always
nonnegative. -/
theorem c10_amended :
    (∀ ps : List ℚ, ps.length < 2 → analyticsSharpeSq ps = 0) ∧
    (∀ ps : List ℚ, sampleVar ps = 0 → analyticsSharpeSq ps = 0) ∧
    (∀ ps : List ℚ, 2 ≤ ps.length → sampleVar ps ≠ 0 →
        analyticsSharpeSq ps * sampleVar ps = meanQ ps * |meanQ ps|) ∧
    (∀ ps : List ℚ, 0 ≤ sampleVar ps) := by
  refine ⟨?_, ?_, ?_, sampleVar_nonneg⟩
  · intro ps h
    unfold analyticsSharpeSq
    rw [if_neg]
    rintro ⟨h1, -⟩
    exact absurd h1 (Nat.not_le.mpr h)
  · intro ps h
    unfold analyticsSharpeSq
    rw [if_neg]
    rintro ⟨-, h2⟩
    rw [h] at h2
    exact lt_irrefl 0 h2
  · intro ps h1 h2
    have hpos : 0 < sampleVar ps := lt_of_le_of_ne (sampleVar_nonneg ps) (Ne.symm h2)
    unfold analyticsSharpeSq
    rw [if_pos ⟨h1, hpos⟩]
    exact div_mul_cancel₀ _ h2

/-- C10, witness for the amended theorem, instantiating the nonzero
variance branch at the pnl list [1, 3]. -/
theorem c10_witness :
    analyticsSharpeSq [1, 3] * sampleVar [1, 3] = meanQ [1, 3] * |meanQ [1, 3]| :=
  c10_amended.2.2.1 [1, 3] (by decide)
    (by norm_num [sampleVar, sqDevSum, meanQ])
